import Mathlib

/-!
Verification of the hive agent-graph core against its specification.

The development shallowly embeds the data model and the operations of the
goal-driven execution and evaluation engine: graph validation, condition
evaluation with the priority/id tie-break, the executor loop with bounded
retries and pause/resume, the test lifecycle and runner, the error
categorizer, and the front-end HTTP API client.  Components whose
implementation is present in the sources (the generated agent template
validate method and the ApiClient) are embedded from that code; components
whose implementation is absent (the framework executor and test runner) are
modelled from the specification, as marked on each definition.
-/

namespace Hive

/-- Execution context: ordered key-value pairs; lookup takes the first match,
so prepending updated pairs makes them override older bindings. -/
abbrev Ctx := List (String × String)

/-- Merge updated bindings over a base context: the updates win on lookup. -/
def mergeCtx (base updates : Ctx) : Ctx := updates ++ base

/-- Edge transition kinds of the graph model. -/
inductive EdgeCondition
  | on_success
  | on_failure
  | always
  | conditional
deriving DecidableEq, Repr

/-- Unit of work in the graph (node specification). -/
structure NodeSpec where
  id : String
  name : String
  node_type : String
  input_keys : List String
  output_keys : List String
  max_retries : Nat
deriving DecidableEq, Repr

/-- Directed, conditioned transition between two nodes. -/
structure EdgeSpec where
  id : String
  source : String
  target : String
  condition : EdgeCondition
  condition_expr : Option String
  priority : Int
deriving DecidableEq, Repr

/-- Full workflow definition. -/
structure GraphSpec where
  id : String
  goal_id : String
  version : String
  entry_node : String
  entry_points : List (String × String)
  terminal_nodes : List String
  pause_nodes : List String
  nodes : List NodeSpec
  edges : List EdgeSpec
deriving DecidableEq, Repr

/-- Result shape returned by graph validation. -/
structure ValidationResult where
  valid : Bool
  errors : List String
  warnings : List String
deriving DecidableEq, Repr

/-- Ids of the nodes of a graph, in declaration order. -/
def nodeIds (g : GraphSpec) : List String := g.nodes.map (fun n => n.id)

/-- Embeds the validate method of the generated agent template in the
building-agents skill (src/unnamed/part_003): one error per edge source and
per edge target that is not among the node ids, then an error when the entry
node is not among the node ids; valid is the emptiness of the error list.
The source collects node ids into a set and tests membership, which agrees
with list membership used here. -/
def validate (g : GraphSpec) : ValidationResult :=
  let node_ids := nodeIds g
  let edgeErrors := g.edges.flatMap (fun e =>
    (if node_ids.contains e.source then []
     else ["Edge " ++ e.id ++ ": source " ++ e.source ++ " not found"]) ++
    (if node_ids.contains e.target then []
     else ["Edge " ++ e.id ++ ": target " ++ e.target ++ " not found"]))
  let entryErrors :=
    if node_ids.contains g.entry_node then []
    else ["Entry node " ++ g.entry_node ++ " not found"]
  let errors := edgeErrors ++ entryErrors
  { valid := errors.isEmpty, errors := errors, warnings := [] }

/-- Lifecycle status of a generated test. -/
inductive TestStatus
  | pending
  | approved
  | modified
  | rejected
deriving DecidableEq, Repr

/-- Kind of a generated test, by generation stage. -/
inductive TestType
  | constraint
  | success_criteria
  | edge_case
deriving DecidableEq, Repr

/-- Generated check tracked by the test lifecycle manager. -/
structure Test where
  id : String
  goal_id : String
  test_type : TestType
  status : TestStatus
  parent_criteria_id : String
deriving DecidableEq, Repr

/-- Root-cause categories attached to failing tests. -/
inductive ErrorCategory
  | LOGIC_ERROR
  | IMPLEMENTATION_ERROR
  | EDGE_CASE
deriving DecidableEq, Repr

/-- Contiguous-substring test on character lists, by scanning suffixes. -/
def containsSub (p : List Char) : List Char → Bool
  | [] => p.isEmpty
  | c :: rest => p.isPrefixOf (c :: rest) || containsSub p rest

/-- Substring occurrence on strings. -/
def occursIn (pat text : String) : Bool := containsSub pat.data text.data

/-- Patterns whose occurrence classifies a failure as LOGIC_ERROR, from the
pattern table of the testing-agent skill (src/unnamed/part_002). -/
def logicErrorPatterns : List String :=
  ["goal not achieved", "constraint violated: core", "fundamental assumption",
   "success criteria mismatch", "expected behavior incorrect"]

/-- Patterns whose occurrence classifies a failure as IMPLEMENTATION_ERROR,
from the pattern table of the testing-agent skill (src/unnamed/part_002). -/
def implementationErrorPatterns : List String :=
  ["TypeError", "AttributeError", "KeyError", "ValueError", "tool call failed",
   "node execution error", "assertion failed", "null pointer", "undefined"]

/-- Patterns whose occurrence classifies a failure as EDGE_CASE, from the
pattern table of the testing-agent skill (src/unnamed/part_002). -/
def edgeCasePatterns : List String :=
  ["boundary condition", "timeout", "rate limit", "empty result", "no results",
   "unexpected format", "rare input", "unusual"]

/-- Modelled from the spec: the error categorizer implementation is not among
the sources; per section 4.6 and the testing-agent skill pattern table, the
groups are tried in the fixed order LOGIC_ERROR, IMPLEMENTATION_ERROR,
EDGE_CASE, first match wins, and IMPLEMENTATION_ERROR is the default when no
pattern matches. -/
def categorize (text : String) : ErrorCategory :=
  if logicErrorPatterns.any (fun p => occursIn p text) then .LOGIC_ERROR
  else if implementationErrorPatterns.any (fun p => occursIn p text) then .IMPLEMENTATION_ERROR
  else if edgeCasePatterns.any (fun p => occursIn p text) then .EDGE_CASE
  else .IMPLEMENTATION_ERROR

/-- Outcome of executing one selected test: it either finished with a verdict
and an error text, or exceeded its configured timeout. -/
inductive TestOutcome
  | finished (passed : Bool) (errorText : String) (duration_ms : Nat)
  | timedOut (duration_ms : Nat)
deriving DecidableEq, Repr

/-- Outcome record of one test, as returned by the runner. -/
structure TestRunResult where
  test_id : String
  passed : Bool
  duration_ms : Nat
  error_category : Option ErrorCategory
deriving DecidableEq, Repr

/-- Aggregated counters of a test run. -/
structure TestSummary where
  total : Nat
  passed : Nat
  failed : Nat
  pass_rate : ℚ
deriving DecidableEq, Repr

/-- Report returned by the test runner. -/
structure TestRunReport where
  goal_id : String
  overall_passed : Bool
  summary : TestSummary
  results : List TestRunResult
deriving DecidableEq, Repr

/-- Modelled from the spec: the runner implementation is not among the
sources; per section 4.4/4.5 and the testing-agent skill execution flow, the
runner loads only tests with status approved or modified, skipping pending
and rejected ones. -/
def selectTests (tests : List Test) : List Test :=
  tests.filter (fun t =>
    decide (t.status = TestStatus.approved ∨ t.status = TestStatus.modified))

/-- Modelled from the spec: one test result; a finished failing test carries
the category of its error text, a timed-out test is recorded as failed with
category IMPLEMENTATION_ERROR, and a passing test carries no category. -/
def resultOf (outcome : Test → TestOutcome) (t : Test) : TestRunResult :=
  match outcome t with
  | .finished true _ d =>
    { test_id := t.id, passed := true, duration_ms := d, error_category := none }
  | .finished false e d =>
    { test_id := t.id, passed := false, duration_ms := d,
      error_category := some (categorize e) }
  | .timedOut d =>
    { test_id := t.id, passed := false, duration_ms := d,
      error_category := some ErrorCategory.IMPLEMENTATION_ERROR }

/-- Modelled from the spec: aggregation of a result list per section 4.5,
with pass_rate equal to passed over total. -/
def summarize (results : List TestRunResult) : TestSummary :=
  let total := results.length
  let passedCount := (results.filter (fun r => r.passed)).length
  let failedCount := (results.filter (fun r => !r.passed)).length
  { total := total, passed := passedCount, failed := failedCount,
    pass_rate := (passedCount : ℚ) / (total : ℚ) }

/-- Modelled from the spec: run_tests per sections 4.4/4.5; the outcome of
each selected test is supplied by the opaque execution capability, every
selected test is recorded (a timeout never aborts siblings), and the report
aggregates the results. -/
def run_tests (goal : String) (tests : List Test) (outcome : Test → TestOutcome) :
    TestRunReport :=
  let results := (selectTests tests).map (resultOf outcome)
  let s := summarize results
  { goal_id := goal, overall_passed := s.failed == 0, summary := s, results := results }

/-- Modelled from the spec: result of one opaque node invocation, per the
consumed node-invocation capability of section 6. -/
structure InvokeResult where
  outputs : Ctx
  success : Bool
  error : Option String
  awaiting_input : Bool
deriving DecidableEq, Repr

/-- Node invocation capability: node id, context and attempt index give the
invocation result.  The attempt index lets the environment answer differently
on retries, as in scenario A of section 8. -/
abbrev Invoker := String → Ctx → Nat → InvokeResult

/-- Condition-expression evaluation capability: evaluates an expression
against the context, per section 4.2. -/
abbrev CondEval := String → Ctx → Bool

/-- Modelled from the spec: bounded retry of section 4.3 step 2.  The node is
invoked; on an error signal, while the retry counter is still below the
remaining budget, the same node is re-invoked with the same inputs; once the
budget is exhausted the last failing result stands as the failed outcome. -/
def retryInvoke (inv : Invoker) (nid : String) (ctx : Ctx) :
    Nat → Nat → InvokeResult
  | attempt, remaining =>
    let r := inv nid ctx attempt
    if r.success then r
    else
      match remaining with
      | 0 => r
      | rem + 1 => retryInvoke inv nid ctx (attempt + 1) rem

/-- Modelled from the spec: edge eligibility of section 4.2, by condition
kind, against the invocation outcome and the current context. -/
def edgeEligible (ce : CondEval) (res : InvokeResult) (ctx : Ctx)
    (e : EdgeSpec) : Bool :=
  match e.condition with
  | .on_success => res.success
  | .on_failure => !res.success
  | .always => true
  | .conditional =>
    match e.condition_expr with
    | some expr => ce expr ctx
    | none => false

/-- Modelled from the spec: the strict tie-break order of section 4.2; an
edge beats another when its priority is higher, or the priorities tie and its
id is lexicographically smaller. -/
def higherPrecedence (a b : EdgeSpec) : Bool :=
  decide (b.priority < a.priority) ||
    (a.priority == b.priority && decide (a.id.data < b.id.data))

/-- Modelled from the spec: keep the better of the best edge so far and the
next candidate; the earlier-seen edge wins exact ties. -/
def pickBetter (best : Option EdgeSpec) (e : EdgeSpec) : Option EdgeSpec :=
  match best with
  | none => some e
  | some b => if higherPrecedence e b then some e else some b

/-- Modelled from the spec: pick the winning edge of a candidate list under
the tie-break order. -/
def selectEdge (edges : List EdgeSpec) : Option EdgeSpec :=
  edges.foldl pickBetter none

/-- Modelled from the spec: the edge that fires out of a node, per sections
4.2 and 4.3 step 4: among the outgoing edges of the source that are eligible
for the outcome, the winner under the priority/id tie-break. -/
def fireEdge (ce : CondEval) (res : InvokeResult) (ctx : Ctx)
    (edges : List EdgeSpec) (src : String) : Option EdgeSpec :=
  selectEdge ((edges.filter (fun e => e.source == src)).filter
    (edgeEligible ce res ctx))

/-- Outcome of a run; the visited path is exposed for the round-trip
comparison of resumed and uninterrupted runs. -/
structure ExecutionResult where
  success : Bool
  steps_executed : Nat
  output : Ctx
  error : Option String
  paused_at : Option String
  visited : List String
deriving DecidableEq, Repr

/-- Suspended run state persisted on pause. -/
structure PauseState where
  paused_at : String
  saved_context : Ctx
  resume_label : String
deriving DecidableEq, Repr

/-- Modelled from the spec: the executor main loop of section 4.3 steps 2 to
5, fuel-bounded to stay total.  Each iteration invokes the current node with
bounded retries, pauses when the node is a pause node awaiting input,
finishes at terminal nodes, and otherwise follows the winning eligible edge,
reporting a stuck run as a fatal error when none is eligible. -/
def runLoop (nodes : List NodeSpec) (edges : List EdgeSpec)
    (pauseNodes terminalNodes : List String) (inv : Invoker) (ce : CondEval) :
    Nat → String → Ctx → List String → Nat → ExecutionResult
  | 0, _, ctx, visited, steps =>
    { success := false, steps_executed := steps, output := ctx,
      error := some "step budget exhausted", paused_at := none,
      visited := visited }
  | fuel + 1, cur, ctx, visited, steps =>
    match nodes.find? (fun n => n.id == cur) with
    | none =>
      { success := false, steps_executed := steps, output := ctx,
        error := some ("node not found: " ++ cur), paused_at := none,
        visited := visited }
    | some node =>
      let res := retryInvoke inv cur ctx 0 node.max_retries
      if pauseNodes.contains cur && res.awaiting_input then
        { success := true, steps_executed := steps,
          output := mergeCtx ctx res.outputs, error := none,
          paused_at := some cur, visited := visited }
      else
        let ctx2 := mergeCtx ctx res.outputs
        let visited2 := visited ++ [cur]
        let steps2 := steps + 1
        if terminalNodes.contains cur then
          { success := res.success, steps_executed := steps2, output := ctx2,
            error := res.error, paused_at := none, visited := visited2 }
        else
          match fireEdge ce res ctx2 edges cur with
          | some e =>
            runLoop nodes edges pauseNodes terminalNodes inv ce fuel
              e.target ctx2 visited2 steps2
          | none =>
            { success := false, steps_executed := steps2, output := ctx2,
              error := some "stuck: no eligible outgoing edge",
              paused_at := none, visited := visited2 }

/-- Modelled from the spec: execute of section 4.3 step 1.  With a session
carrying a pause state, the run resumes at the node referenced by the resume
label in entry_points, with the saved context merged under the new input;
otherwise the run starts at the entry node with the input context. -/
def execute (g : GraphSpec) (inv : Invoker) (ce : CondEval) (fuel : Nat)
    (input_context : Ctx) (session_state : Option PauseState) :
    ExecutionResult :=
  match session_state with
  | some ps =>
    match g.entry_points.lookup ps.resume_label with
    | some startNode =>
      runLoop g.nodes g.edges g.pause_nodes g.terminal_nodes inv ce fuel
        startNode (mergeCtx ps.saved_context input_context) [] 0
    | none =>
      { success := false, steps_executed := 0, output := input_context,
        error := some ("unknown resume entry point: " ++ ps.resume_label),
        paused_at := none, visited := [] }
  | none =>
    runLoop g.nodes g.edges g.pause_nodes g.terminal_nodes inv ce fuel
      g.entry_node input_context [] 0

/-- JSON values, for the bodies the API client parses. -/
inductive Json
  | null
  | bool (b : Bool)
  | num (n : Int)
  | str (s : String)
  | arr (elems : List Json)
  | obj (fields : List (String × Json))

/-- JavaScript truthiness of a JSON value: null, false, zero and the empty
string are falsy; arrays and objects are truthy. -/
def jsTruthy : Json → Bool
  | .null => false
  | .bool b => b
  | .num n => n != 0
  | .str s => s != ""
  | .arr _ => true
  | .obj _ => true

/-- Field access on a parsed JSON value; anything but an object yields no
field, matching a JavaScript member read coming back undefined (a read on
null throws and is caught by the surrounding handler, with the same final
outcome). -/
def getField (j : Json) (key : String) : Option Json :=
  match j with
  | .obj fields => fields.lookup key
  | _ => none

/-- Field access keeping only truthy values, matching the short-circuit
fallthrough of the JavaScript or-chain. -/
def truthyField (j : Json) (key : String) : Option Json :=
  match getField j key with
  | some v => if jsTruthy v then some v else none
  | none => none

/-- Embeds parseErrorMessage of ApiClient (src/honeycomb/src/services/
userApi.ts): the body text is parsed as JSON and the chain msg, message,
text picks the first truthy value, falling back to the raw body text when
parsing fails or neither field is truthy. -/
def parseErrorMessage (parse : String → Option Json) (text : String) : Json :=
  match parse text with
  | none => .str text
  | some j =>
    match truthyField j "msg" with
    | some v => v
    | none =>
      match truthyField j "message" with
      | some v => v
      | none => .str text

/-- Error object the API client rejects with on a non-2xx response. -/
structure ApiError where
  status : Nat
  message : Json

/-- Failure modes of one API client request: an ApiError for a non-ok
response, or a JSON parse failure of an ok response body. -/
inductive RequestError
  | api (err : ApiError)
  | invalidJson (body : String)

/-- One HTTP request as assembled by the client. -/
structure HttpRequest where
  method : String
  url : String
  headers : List (String × String)
  body : Option String
deriving DecidableEq, Repr

/-- One HTTP response as consumed by the client. -/
structure HttpResponse where
  status : Nat
  body : String
deriving DecidableEq, Repr

/-- The ok flag of a fetch response: status in the 2xx range. -/
def respOk (r : HttpResponse) : Bool :=
  decide (200 ≤ r.status) && decide (r.status < 300)

/-- Opaque transport: the response the environment returns per request. -/
abbrev Fetch := HttpRequest → HttpResponse

/-- Embeds getHeaders of ApiClient: a JSON content type, plus the stored
authorization token when one is present. -/
def getHeaders (token : Option String) : List (String × String) :=
  [("Content-Type", "application/json")] ++
    (match token with
     | some t => [("Authorization", t)]
     | none => [])

/-- The API client: a base URL prepended to every endpoint. -/
structure ApiClient where
  baseUrl : String
deriving DecidableEq, Repr

/-- Request assembled by ApiClient.get: method GET, token headers, no body. -/
def ApiClient.getRequest (c : ApiClient) (token : Option String)
    (endpoint : String) : HttpRequest :=
  { method := "GET", url := c.baseUrl ++ endpoint,
    headers := getHeaders token, body := none }

/-- Request assembled by ApiClient.post: method POST, token headers, and the
stringified data as body when the data is truthy (a missing or falsy data
value sends no body, as in the source conditional). -/
def ApiClient.postRequest (c : ApiClient) (stringify : Json → String)
    (token : Option String) (endpoint : String) (data : Option Json) :
    HttpRequest :=
  { method := "POST", url := c.baseUrl ++ endpoint,
    headers := getHeaders token,
    body :=
      match data with
      | some d => if jsTruthy d then some (stringify d) else none
      | none => none }

/-- Request assembled by ApiClient.put: method PUT, token headers, and the
stringified data as body. -/
def ApiClient.putRequest (c : ApiClient) (stringify : Json → String)
    (token : Option String) (endpoint : String) (data : Json) : HttpRequest :=
  { method := "PUT", url := c.baseUrl ++ endpoint,
    headers := getHeaders token, body := some (stringify data) }

/-- Request assembled by ApiClient.delete: method DELETE, token headers, no
body. -/
def ApiClient.deleteRequest (c : ApiClient) (token : Option String)
    (endpoint : String) : HttpRequest :=
  { method := "DELETE", url := c.baseUrl ++ endpoint,
    headers := getHeaders token, body := none }

/-- Embeds ApiClient.get: fetch with method GET and no body, return the
parsed JSON body when the response is ok, otherwise reject with an ApiError
built from the status and the parsed error message. -/
def ApiClient.get (c : ApiClient) (fetch : Fetch) (parse : String → Option Json)
    (token : Option String) (endpoint : String) : Except RequestError Json :=
  let response := fetch (c.getRequest token endpoint)
  if respOk response then
    match parse response.body with
    | some j => Except.ok j
    | none => Except.error (.invalidJson response.body)
  else
    Except.error (.api
      { status := response.status,
        message := parseErrorMessage parse response.body })

/-- Embeds ApiClient.post: fetch with method POST and the stringified data as
body when the data is truthy, then the same response handling as get. -/
def ApiClient.post (c : ApiClient) (fetch : Fetch) (parse : String → Option Json)
    (stringify : Json → String) (token : Option String) (endpoint : String)
    (data : Option Json) : Except RequestError Json :=
  let response := fetch (c.postRequest stringify token endpoint data)
  if respOk response then
    match parse response.body with
    | some j => Except.ok j
    | none => Except.error (.invalidJson response.body)
  else
    Except.error (.api
      { status := response.status,
        message := parseErrorMessage parse response.body })

/-- Embeds ApiClient.put: fetch with method PUT and the stringified data as
body, then the same response handling as get. -/
def ApiClient.put (c : ApiClient) (fetch : Fetch) (parse : String → Option Json)
    (stringify : Json → String) (token : Option String) (endpoint : String)
    (data : Json) : Except RequestError Json :=
  let response := fetch (c.putRequest stringify token endpoint data)
  if respOk response then
    match parse response.body with
    | some j => Except.ok j
    | none => Except.error (.invalidJson response.body)
  else
    Except.error (.api
      { status := response.status,
        message := parseErrorMessage parse response.body })

/-- Embeds ApiClient.delete: fetch with method DELETE and no body, then the
same response handling as get. -/
def ApiClient.delete (c : ApiClient) (fetch : Fetch)
    (parse : String → Option Json) (token : Option String)
    (endpoint : String) : Except RequestError Json :=
  let response := fetch (c.deleteRequest token endpoint)
  if respOk response then
    match parse response.body with
    | some j => Except.ok j
    | none => Except.error (.invalidJson response.body)
  else
    Except.error (.api
      { status := response.status,
        message := parseErrorMessage parse response.body })

/-- Strict tie-break order as a proposition: higher priority wins, and ties
go to the lexicographically smaller id. -/
def Beats (a b : EdgeSpec) : Prop :=
  b.priority < a.priority ∨ (a.priority = b.priority ∧ a.id < b.id)

/-- Function-node specification with the given id and no retries. -/
def nodeOf (nid : String) : NodeSpec :=
  { id := nid, name := nid, node_type := "function", input_keys := [],
    output_keys := [], max_retries := 0 }

/-- Graph whose entry node is missing and whose only edge targets a missing
node. -/
def badGraph : GraphSpec :=
  { id := "g-bad", goal_id := "goal", version := "1.0.0",
    entry_node := "missing", entry_points := [], terminal_nodes := [],
    pause_nodes := [],
    nodes := [nodeOf ("a")],
    edges := [{ id := "e1", source := "a", target := "b",
                condition := .on_success, condition_expr := none,
                priority := 0 }] }

/-- Graph with a duplicated node id and a duplicated edge id whose edge
endpoints and entry node all exist. -/
def dupGraph : GraphSpec :=
  { id := "g-dup", goal_id := "goal", version := "1.0.0", entry_node := "a",
    entry_points := [], terminal_nodes := ["a"], pause_nodes := [],
    nodes := [nodeOf ("a"), nodeOf ("a")],
    edges := [{ id := "e", source := "a", target := "a",
                condition := .always, condition_expr := none, priority := 0 },
              { id := "e", source := "a", target := "a",
                condition := .always, condition_expr := none, priority := 1 }] }

/-- Ids of the edges of a graph, in declaration order. -/
def edgeIds (g : GraphSpec) : List String := g.edges.map (fun e => e.id)

/-- Test fixture with the given id and status. -/
def mkTest (tid : String) (st : TestStatus) : Test :=
  { id := tid, goal_id := "g", test_type := .constraint, status := st,
    parent_criteria_id := "c1" }

/-- Four tests, one per lifecycle status. -/
def sampleTests : List Test :=
  [mkTest ("t1") .approved, mkTest ("t2") .pending,
   mkTest ("t3") .modified, mkTest ("t4") .rejected]

/-- Outcome environment: t1 passes, t3 times out, anything else fails with an
assertion message. -/
def sampleOutcome : Test → TestOutcome := fun t =>
  if t.id == "t1" then .finished true "" 10
  else if t.id == "t3" then .timedOut 60
  else .finished false "assertion failed" 5

/-- Scenario A of the spec: node A with one allowed retry, routed to B on
success and to C on failure. -/
def scenarioGraph : GraphSpec :=
  { id := "g-sc", goal_id := "goal", version := "1.0.0", entry_node := "A",
    entry_points := [], terminal_nodes := ["B", "C"], pause_nodes := [],
    nodes := [{ id := "A", name := "A", node_type := "llm_generate",
                input_keys := [], output_keys := [], max_retries := 1 },
              nodeOf ("B"), nodeOf ("C")],
    edges := [{ id := "eAB", source := "A", target := "B",
                condition := .on_success, condition_expr := none,
                priority := 0 },
              { id := "eAC", source := "A", target := "C",
                condition := .on_failure, condition_expr := none,
                priority := 0 }] }

/-- Invocation environment where node A fails on its first attempt and every
other invocation succeeds. -/
def flakyInvoker : Invoker := fun nid _ attempt =>
  if nid == "A" && attempt == 0 then
    { outputs := [], success := false, error := some "transient failure",
      awaiting_input := false }
  else
    { outputs := [], success := true, error := none, awaiting_input := false }

/-- Invocation environment where every invocation fails. -/
def failingInvoker : Invoker := fun _ _ _ =>
  { outputs := [], success := false, error := some "boom",
    awaiting_input := false }

/-- Invocation environment where every invocation succeeds. -/
def okInvoker : Invoker := fun _ _ _ =>
  { outputs := [], success := true, error := none, awaiting_input := false }

/-- Condition evaluation that rejects every expression. -/
def constFalseCE : CondEval := fun _ _ => false

/-- A successful invocation outcome. -/
def anyRes : InvokeResult :=
  { outputs := [], success := true, error := none, awaiting_input := false }

/-- The edge that must win the tie-break among the fixture edges: highest
priority, smallest id among the priority ties. -/
def tieWinner : EdgeSpec :=
  { id := "e-a", source := "S", target := "A", condition := .always,
    condition_expr := none, priority := 2 }

/-- Three always-eligible edges out of S: one lower-priority edge and two
edges tied at the highest priority with distinct ids. -/
def tieEdges : List EdgeSpec :=
  [{ id := "e-b", source := "S", target := "B", condition := .always,
     condition_expr := none, priority := 1 },
   { id := "e-c", source := "S", target := "C", condition := .always,
     condition_expr := none, priority := 2 },
   tieWinner]

/-- Graph with a pause node and a named resume entry point at n2. -/
def resumeGraph : GraphSpec :=
  { id := "g-res", goal_id := "goal", version := "1.0.0", entry_node := "n1",
    entry_points := [("start", "n1"), ("p_resume", "n2")],
    terminal_nodes := ["n3"], pause_nodes := ["p"],
    nodes := [nodeOf ("n1"), nodeOf ("n2"), nodeOf ("n3")],
    edges := [{ id := "e23", source := "n2", target := "n3",
                condition := .always, condition_expr := none,
                priority := 0 }] }

/-- Demo API client. -/
def demoClient : ApiClient := { baseUrl := "https://api.example.com" }

/-- Demo transport: GET requests succeed with body ok, everything else gets a
404 with a non-JSON body. -/
def demoFetch : Fetch := fun req =>
  if req.method == "GET" then { status := 200, body := "ok" }
  else { status := 404, body := "nope" }

/-- Demo JSON parsing: only the body ok parses. -/
def demoParse : String → Option Json := fun s =>
  if s == "ok" then some (Json.str ("ready")) else none

/-- Demo JSON serialization. -/
def demoStringify : Json → String := fun _ => "x"

/-- Unfolded form of the error list produced by validate. -/
theorem validate_errors_def (g : GraphSpec) :
    (validate g).errors =
      (g.edges.flatMap (fun e =>
        (if (nodeIds g).contains e.source then []
         else ["Edge " ++ e.id ++ ": source " ++ e.source ++ " not found"]) ++
        (if (nodeIds g).contains e.target then []
         else ["Edge " ++ e.id ++ ": target " ++ e.target ++ " not found"]))) ++
      (if (nodeIds g).contains g.entry_node then []
       else ["Entry node " ++ g.entry_node ++ " not found"]) := rfl

/-- The valid flag of validate is the emptiness of its error list. -/
theorem validate_valid_def (g : GraphSpec) :
    (validate g).valid = ((validate g).errors).isEmpty := rfl

/-- A nonempty error list forces the valid flag to false. -/
theorem validate_valid_false_of_errors_ne_nil (g : GraphSpec)
    (h : (validate g).errors ≠ []) : (validate g).valid = false := by
  rw [validate_valid_def]
  cases hE : (validate g).errors with
  | nil => exact absurd hE h
  | cons a l => simp

/-- C2: for every GraphSpec, validate returns valid exactly when the error
list is empty; an edge whose source or target is not among the node ids, or
an entry node not among the node ids, forces valid to false. -/
theorem validate_valid_iff_no_errors (g : GraphSpec) :
    ((validate g).valid = true ↔ (validate g).errors = []) ∧
    (∀ e ∈ g.edges,
      ((nodeIds g).contains e.source = false ∨
       (nodeIds g).contains e.target = false) →
      (validate g).valid = false) ∧
    ((nodeIds g).contains g.entry_node = false → (validate g).valid = false) := by
  refine ⟨?_, ?_, ?_⟩
  · rw [validate_valid_def]
    cases hE : (validate g).errors with
    | nil => simp
    | cons a l => simp
  · intro e he hmiss
    apply validate_valid_false_of_errors_ne_nil
    rw [validate_errors_def]
    intro hnil
    rcases List.append_eq_nil.mp hnil with ⟨h1, _⟩
    rcases hmiss with hm | hm
    · have hmem : ("Edge " ++ e.id ++ ": source " ++ e.source ++ " not found") ∈
          g.edges.flatMap (fun e =>
            (if (nodeIds g).contains e.source then []
             else ["Edge " ++ e.id ++ ": source " ++ e.source ++ " not found"]) ++
            (if (nodeIds g).contains e.target then []
             else ["Edge " ++ e.id ++ ": target " ++ e.target ++ " not found"])) := by
        refine List.mem_flatMap.mpr ⟨e, he, ?_⟩
        rw [hm]
        simp
      rw [h1] at hmem
      exact List.not_mem_nil _ hmem
    · have hmem : ("Edge " ++ e.id ++ ": target " ++ e.target ++ " not found") ∈
          g.edges.flatMap (fun e =>
            (if (nodeIds g).contains e.source then []
             else ["Edge " ++ e.id ++ ": source " ++ e.source ++ " not found"]) ++
            (if (nodeIds g).contains e.target then []
             else ["Edge " ++ e.id ++ ": target " ++ e.target ++ " not found"])) := by
        refine List.mem_flatMap.mpr ⟨e, he, ?_⟩
        rw [hm]
        simp
      rw [h1] at hmem
      exact List.not_mem_nil _ hmem
  · intro hmiss
    apply validate_valid_false_of_errors_ne_nil
    rw [validate_errors_def, hmiss]
    simp

/-- C2 witness: on the graph with a dangling edge and missing entry node, the
fatal conjuncts apply and the iff holds. -/
theorem validate_valid_iff_no_errors_witness :
    (validate badGraph).valid = false ∧
    ((validate badGraph).valid = true ↔ (validate badGraph).errors = []) := by
  have h := validate_valid_iff_no_errors badGraph
  exact ⟨h.2.2 (by decide), h.1⟩

/-- C3 counterexample: dupGraph has a duplicate node id and a duplicate edge
id, yet validate reports no error and returns valid. -/
theorem validate_duplicate_ids_counterexample :
    ¬ (nodeIds dupGraph).Nodup ∧ ¬ (edgeIds dupGraph).Nodup ∧
    (validate dupGraph).errors = [] ∧ (validate dupGraph).valid = true := by
  decide

/-- C3 (amended): validate reports no fatal error for duplicate node or edge
ids; whenever every edge endpoint and the entry node are among the node ids,
validate returns valid with an empty error list, duplicates included. -/
theorem validate_ignores_duplicates (g : GraphSpec)
    (hs : ∀ e ∈ g.edges, (nodeIds g).contains e.source = true ∧
      (nodeIds g).contains e.target = true)
    (he : (nodeIds g).contains g.entry_node = true) :
    (validate g).valid = true ∧ (validate g).errors = [] := by
  have herr : (validate g).errors = [] := by
    rw [validate_errors_def]
    simp only [he, if_true, List.append_nil, List.flatMap_eq_nil_iff]
    intro e he2
    rcases hs e he2 with ⟨h1, h2⟩
    rw [h1, h2]
    rfl
  refine ⟨?_, herr⟩
  rw [validate_valid_def, herr]
  rfl

/-- C3 amended-claim witness: the duplicate-id graph satisfies the
endpoint and entry hypotheses and validates cleanly. -/
theorem validate_ignores_duplicates_witness :
    (validate dupGraph).valid = true ∧ (validate dupGraph).errors = [] :=
  validate_ignores_duplicates dupGraph (by decide) (by decide)

/-- C4: categorize tries the pattern groups in the fixed order LOGIC_ERROR,
IMPLEMENTATION_ERROR, EDGE_CASE, first matching group wins, defaults to
IMPLEMENTATION_ERROR, and classifies the three concrete spec messages as
LOGIC_ERROR, IMPLEMENTATION_ERROR and EDGE_CASE respectively. -/
theorem categorize_precedence :
    (∀ text, logicErrorPatterns.any (fun p => occursIn p text) = true →
      categorize text = ErrorCategory.LOGIC_ERROR) ∧
    (∀ text, logicErrorPatterns.any (fun p => occursIn p text) = false →
      implementationErrorPatterns.any (fun p => occursIn p text) = true →
      categorize text = ErrorCategory.IMPLEMENTATION_ERROR) ∧
    (∀ text, logicErrorPatterns.any (fun p => occursIn p text) = false →
      implementationErrorPatterns.any (fun p => occursIn p text) = false →
      edgeCasePatterns.any (fun p => occursIn p text) = true →
      categorize text = ErrorCategory.EDGE_CASE) ∧
    (∀ text, logicErrorPatterns.any (fun p => occursIn p text) = false →
      implementationErrorPatterns.any (fun p => occursIn p text) = false →
      edgeCasePatterns.any (fun p => occursIn p text) = false →
      categorize text = ErrorCategory.IMPLEMENTATION_ERROR) ∧
    categorize ("constraint violated: core") = ErrorCategory.LOGIC_ERROR ∧
    categorize ("NoneType has no attribute get") =
      ErrorCategory.IMPLEMENTATION_ERROR ∧
    categorize ("rate limit") = ErrorCategory.EDGE_CASE := by
  refine ⟨?_, ?_, ?_, ?_, by decide, by decide, by decide⟩
  · intro text h
    simp [categorize, h]
  · intro text h1 h2
    simp [categorize, h1, h2]
  · intro text h1 h2 h3
    simp [categorize, h1, h2, h3]
  · intro text h1 h2 h3
    simp [categorize, h1, h2, h3]

/-- C4 witness: the precedence conjuncts applied at concrete messages. -/
theorem categorize_precedence_witness :
    categorize ("goal not achieved") = ErrorCategory.LOGIC_ERROR ∧
    categorize ("tool call failed") = ErrorCategory.IMPLEMENTATION_ERROR ∧
    categorize ("unexpected format") = ErrorCategory.EDGE_CASE := by
  have h := categorize_precedence
  exact ⟨h.1 ("goal not achieved") (by decide),
    h.2.1 ("tool call failed") (by decide) (by decide),
    h.2.2.1 ("unexpected format") (by decide) (by decide) (by decide)⟩

/-- The result list of run_tests is the selected tests mapped through the
per-test result constructor. -/
theorem run_tests_results_def (goal : String) (tests : List Test)
    (outcome : Test → TestOutcome) :
    (run_tests goal tests outcome).results =
      (selectTests tests).map (resultOf outcome) := rfl

/-- C1: every result returned by run_tests comes from a test whose status is
approved or modified, and a pending or rejected test is never selected for
execution. -/
theorem run_tests_only_approved_or_modified (goal : String)
    (tests : List Test) (outcome : Test → TestOutcome) :
    (∀ r ∈ (run_tests goal tests outcome).results,
      ∃ t ∈ tests,
        (t.status = TestStatus.approved ∨ t.status = TestStatus.modified) ∧
        r = resultOf outcome t) ∧
    (∀ t ∈ tests,
      (t.status = TestStatus.pending ∨ t.status = TestStatus.rejected) →
      t ∉ selectTests tests) := by
  constructor
  · intro r hr
    rw [run_tests_results_def] at hr
    rcases List.mem_map.mp hr with ⟨t, ht, hrt⟩
    rcases List.mem_filter.mp ht with ⟨htests, hstatus⟩
    exact ⟨t, htests, of_decide_eq_true hstatus, hrt.symm⟩
  · intro t _ hst hmem
    have hstatus := of_decide_eq_true (List.mem_filter.mp hmem).2
    rcases hst with h | h <;> rcases hstatus with h2 | h2 <;>
      rw [h] at h2 <;> exact TestStatus.noConfusion h2

/-- C1 witness: the pending fixture test is not selected by the runner. -/
theorem run_tests_only_approved_or_modified_witness :
    mkTest ("t2") TestStatus.pending ∉ selectTests sampleTests := by
  have h := run_tests_only_approved_or_modified ("g") sampleTests sampleOutcome
  exact h.2 (mkTest ("t2") TestStatus.pending) (by decide) (Or.inl rfl)

/-- C7: the summary of a completed run satisfies pass_rate = passed / total
and overall_passed exactly when no test failed, with the counters counting
the executed results. -/
theorem run_tests_aggregation (goal : String) (tests : List Test)
    (outcome : Test → TestOutcome) :
    ((run_tests goal tests outcome).summary.pass_rate =
      ((run_tests goal tests outcome).summary.passed : ℚ) /
        ((run_tests goal tests outcome).summary.total : ℚ)) ∧
    ((run_tests goal tests outcome).overall_passed = true ↔
      (run_tests goal tests outcome).summary.failed = 0) ∧
    ((run_tests goal tests outcome).summary.total =
      (run_tests goal tests outcome).results.length) ∧
    ((run_tests goal tests outcome).summary.passed =
      ((run_tests goal tests outcome).results.filter
        (fun r => r.passed)).length) ∧
    ((run_tests goal tests outcome).summary.failed =
      ((run_tests goal tests outcome).results.filter
        (fun r => !r.passed)).length) := by
  refine ⟨rfl, ?_, rfl, rfl, rfl⟩
  simp [run_tests]

/-- C7 witness: the aggregation identities at the sample run. -/
theorem run_tests_aggregation_witness :
    ((run_tests ("g") sampleTests sampleOutcome).summary.pass_rate =
      ((run_tests ("g") sampleTests sampleOutcome).summary.passed : ℚ) /
        ((run_tests ("g") sampleTests sampleOutcome).summary.total : ℚ)) ∧
    ((run_tests ("g") sampleTests sampleOutcome).overall_passed = true ↔
      (run_tests ("g") sampleTests sampleOutcome).summary.failed = 0) := by
  have h := run_tests_aggregation ("g") sampleTests sampleOutcome
  exact ⟨h.1, h.2.1⟩

/-- C8: every selected test is recorded in the results (a timeout aborts no
sibling), a timed-out test is recorded as failed with category
IMPLEMENTATION_ERROR, and a result carries an error category exactly when it
failed. -/
theorem run_tests_timeout_recorded (goal : String) (tests : List Test)
    (outcome : Test → TestOutcome) :
    ((run_tests goal tests outcome).results.length =
      (selectTests tests).length) ∧
    (∀ t ∈ selectTests tests,
      resultOf outcome t ∈ (run_tests goal tests outcome).results) ∧
    (∀ r ∈ (run_tests goal tests outcome).results,
      (r.error_category ≠ none ↔ r.passed = false)) ∧
    (∀ t ∈ selectTests tests, ∀ d, outcome t = TestOutcome.timedOut d →
      (resultOf outcome t).passed = false ∧
      (resultOf outcome t).error_category =
        some ErrorCategory.IMPLEMENTATION_ERROR) := by
  refine ⟨?_, ?_, ?_, ?_⟩
  · rw [run_tests_results_def]
    exact List.length_map _ _
  · intro t ht
    rw [run_tests_results_def]
    exact List.mem_map.mpr ⟨t, ht, rfl⟩
  · intro r hr
    rw [run_tests_results_def] at hr
    rcases List.mem_map.mp hr with ⟨t, _, hrt⟩
    subst hrt
    cases hout : outcome t with
    | finished p e d => cases p <;> simp [resultOf, hout]
    | timedOut d => simp [resultOf, hout]
  · intro t _ d hout
    simp [resultOf, hout]

/-- C8 witness: the timed-out fixture test is recorded as failed with
category IMPLEMENTATION_ERROR. -/
theorem run_tests_timeout_recorded_witness :
    (resultOf sampleOutcome (mkTest ("t3") TestStatus.modified)).passed =
      false ∧
    (resultOf sampleOutcome (mkTest ("t3") TestStatus.modified)).error_category
      = some ErrorCategory.IMPLEMENTATION_ERROR := by
  have h := run_tests_timeout_recorded ("g") sampleTests sampleOutcome
  exact h.2.2.2 (mkTest ("t3") TestStatus.modified) (by decide) 60 (by decide)

/-- C5: on an error signal the executor re-invokes the same node with the
same inputs while retry budget remains, the last failing outcome stands once
the budget is exhausted, a failed outcome makes on_failure edges eligible,
and in the spec scenario (max_retries one, first attempt fails, second
succeeds) the run routes along the on_success edge to B. -/
theorem executor_retry_policy :
    (∀ (inv : Invoker) (nid : String) (ctx : Ctx) (attempt rem : Nat),
      (inv nid ctx attempt).success = false →
      retryInvoke inv nid ctx attempt (rem + 1) =
        retryInvoke inv nid ctx (attempt + 1) rem) ∧
    (∀ (inv : Invoker) (nid : String) (ctx : Ctx) (attempt : Nat),
      (inv nid ctx attempt).success = false →
      retryInvoke inv nid ctx attempt 0 = inv nid ctx attempt) ∧
    (∀ (ce : CondEval) (res : InvokeResult) (ctx : Ctx) (e : EdgeSpec),
      res.success = false → e.condition = EdgeCondition.on_failure →
      edgeEligible ce res ctx e = true) ∧
    ((execute scenarioGraph flakyInvoker constFalseCE 4 [] none).success =
      true ∧
     (execute scenarioGraph flakyInvoker constFalseCE 4 [] none).visited =
      ["A", "B"]) := by
  refine ⟨?_, ?_, ?_, by decide, by decide⟩
  · intro inv nid ctx attempt rem h
    conv_lhs => rw [retryInvoke.eq_def]
    simp [h]
  · intro inv nid ctx attempt h
    conv_lhs => rw [retryInvoke.eq_def]
    simp [h]
  · intro ce res ctx e hres hcond
    simp [edgeEligible, hcond, hres]

/-- C5 witness: the retry equations at the always-failing environment. -/
theorem executor_retry_policy_witness :
    retryInvoke failingInvoker ("n") [] 0 1 =
      retryInvoke failingInvoker ("n") [] 1 0 ∧
    retryInvoke failingInvoker ("n") [] 1 0 = failingInvoker ("n") [] 1 := by
  have h := executor_retry_policy
  exact ⟨h.1 failingInvoker ("n") [] 0 0 rfl, h.2.1 failingInvoker ("n") [] 1 rfl⟩

/-- C9: resuming a paused run with additional input equals an uninterrupted
run entered at the node referenced by the resume label in entry_points, with
the saved context merged under the new input. -/
theorem execute_resume_roundtrip (g : GraphSpec) (inv : Invoker)
    (ce : CondEval) (fuel : Nat) (savedCtx newInput : Ctx)
    (pausedAt label nid : String)
    (h : g.entry_points.lookup label = some nid) :
    execute g inv ce fuel newInput
        (some { paused_at := pausedAt, saved_context := savedCtx,
                resume_label := label }) =
      execute { g with entry_node := nid } inv ce fuel
        (mergeCtx savedCtx newInput) none := by
  simp [execute, h]

/-- C9 witness: the round-trip equation on the resume fixture graph. -/
theorem execute_resume_roundtrip_witness :
    execute resumeGraph okInvoker constFalseCE 3 [("i", "w")]
        (some { paused_at := "p", saved_context := [("k", "v")],
                resume_label := "p_resume" }) =
      execute { resumeGraph with entry_node := "n2" } okInvoker constFalseCE 3
        (mergeCtx [("k", "v")] [("i", "w")]) none :=
  execute_resume_roundtrip resumeGraph okInvoker constFalseCE 3 [("k", "v")]
    [("i", "w")] ("p") ("p_resume") ("n2") (by decide)

/-- The boolean tie-break test agrees with the strict order Beats. -/
theorem higherPrecedence_iff (a b : EdgeSpec) :
    higherPrecedence a b = true ↔ Beats a b := by
  simp [higherPrecedence, Beats, Bool.or_eq_true, Bool.and_eq_true,
    decide_eq_true_eq, beq_iff_eq, String.lt_iff_toList_lt, String.toList]

/-- The tie-break order is transitive. -/
theorem beats_trans {a b c : EdgeSpec} (h1 : Beats a b) (h2 : Beats b c) :
    Beats a c := by
  rcases h1 with h1 | ⟨h1p, h1id⟩ <;> rcases h2 with h2 | ⟨h2p, h2id⟩
  · exact Or.inl (lt_trans h2 h1)
  · exact Or.inl (h2p ▸ h1)
  · exact Or.inl (lt_of_lt_of_le h2 (le_of_eq h1p.symm))
  · exact Or.inr ⟨h1p.trans h2p, lt_trans h1id h2id⟩

/-- The tie-break order is irreflexive. -/
theorem beats_irrefl (a : EdgeSpec) : ¬ Beats a a := by
  rintro (h | ⟨-, h⟩)
  · exact lt_irrefl _ h
  · exact lt_irrefl _ h

/-- Non-domination under the tie-break order is transitive. -/
theorem not_beats_trans {a b c : EdgeSpec} (h1 : ¬ Beats a b)
    (h2 : ¬ Beats b c) : ¬ Beats a c := by
  simp only [Beats, not_or, not_and, not_lt] at h1 h2
  have hab : a.priority ≤ b.priority := h1.1
  have hbc : b.priority ≤ c.priority := h2.1
  rintro (h | ⟨hp, hid⟩)
  · exact absurd (h.trans_le (hab.trans hbc)) (lt_irrefl _)
  · have hba : b.priority ≤ a.priority := by rw [hp]; exact hbc
    have hpb : a.priority = b.priority := le_antisymm hab hba
    have h1id : b.id ≤ a.id := h1.2 hpb
    have hpbc : b.priority = c.priority := hpb.symm.trans hp
    have h2id : c.id ≤ b.id := h2.2 hpbc
    exact absurd (lt_of_lt_of_le hid (h2id.trans h1id)) (lt_irrefl _)

/-- Folding pickBetter from a seed returns a candidate that nothing in the
remaining list dominates and that the seed does not dominate. -/
theorem selectEdge_go (l : List EdgeSpec) :
    ∀ b : EdgeSpec, ∃ c, l.foldl pickBetter (some b) = some c ∧
      (c = b ∨ c ∈ l) ∧ ¬ Beats b c ∧ ∀ e ∈ l, ¬ Beats e c := by
  induction l with
  | nil =>
    intro b
    exact ⟨b, rfl, Or.inl rfl, beats_irrefl b, by simp⟩
  | cons x xs ih =>
    intro b
    by_cases hx : higherPrecedence x b = true
    · rcases ih x with ⟨c, hfold, hmem, hnb, hall⟩
      refine ⟨c, ?_, ?_, ?_, ?_⟩
      · simpa [pickBetter, hx] using hfold
      · rcases hmem with rfl | hc
        · exact Or.inr (List.mem_cons_self _ _)
        · exact Or.inr (List.mem_cons_of_mem _ hc)
      · intro hbc
        exact hnb (beats_trans ((higherPrecedence_iff x b).mp hx) hbc)
      · intro e he
        rcases List.mem_cons.mp he with rfl | he2
        · exact hnb
        · exact hall e he2
    · rcases ih b with ⟨c, hfold, hmem, hnb, hall⟩
      refine ⟨c, ?_, ?_, hnb, ?_⟩
      · simpa [pickBetter, hx] using hfold
      · rcases hmem with rfl | hc
        · exact Or.inl rfl
        · exact Or.inr (List.mem_cons_of_mem _ hc)
      · intro e he
        rcases List.mem_cons.mp he with rfl | he2
        · have hxb : ¬ Beats e b := fun hb =>
            hx ((higherPrecedence_iff e b).mpr hb)
          exact not_beats_trans hxb hnb
        · exact hall e he2

/-- A selected edge belongs to the candidate list and is dominated by no
candidate. -/
theorem selectEdge_spec (l : List EdgeSpec) (c : EdgeSpec)
    (h : selectEdge l = some c) :
    c ∈ l ∧ ∀ e ∈ l, ¬ Beats e c := by
  cases l with
  | nil => simp [selectEdge] at h
  | cons x xs =>
    rcases selectEdge_go xs x with ⟨c2, hfold, hmem, hnb, hall⟩
    have hsel : selectEdge (x :: xs) = some c2 := by
      simpa [selectEdge, pickBetter] using hfold
    rw [h] at hsel
    obtain rfl : c = c2 := Option.some_inj.mp hsel
    constructor
    · rcases hmem with rfl | hc
      · exact List.mem_cons_self _ _
      · exact List.mem_cons_of_mem _ hc
    · intro e he
      rcases List.mem_cons.mp he with rfl | he2
      · exact hnb
      · exact hall e he2

/-- A nonempty candidate list always yields a selected edge. -/
theorem selectEdge_exists (l : List EdgeSpec) (h : l ≠ []) :
    ∃ c, selectEdge l = some c := by
  cases l with
  | nil => exact absurd rfl h
  | cons x xs =>
    rcases selectEdge_go xs x with ⟨c2, hfold, -, -, -⟩
    exact ⟨c2, by simpa [selectEdge, pickBetter] using hfold⟩

/-- C6: the fired edge is an eligible outgoing edge of the source, has the
highest priority among the simultaneously eligible ones, ties go to the
lexicographically smallest id, and whenever some outgoing edge is eligible an
edge fires. -/
theorem executor_edge_selection (ce : CondEval) (res : InvokeResult)
    (ctx : Ctx) (edges : List EdgeSpec) (src : String) :
    (∀ c, fireEdge ce res ctx edges src = some c →
      c ∈ edges ∧ c.source = src ∧ edgeEligible ce res ctx c = true ∧
      ∀ e ∈ edges, e.source = src → edgeEligible ce res ctx e = true →
        e.priority ≤ c.priority ∧ (e.priority = c.priority → c.id ≤ e.id)) ∧
    (∀ e ∈ edges, e.source = src → edgeEligible ce res ctx e = true →
      ∃ c, fireEdge ce res ctx edges src = some c) := by
  constructor
  · intro c hc
    have hc2 : selectEdge ((edges.filter (fun e => e.source == src)).filter
        (edgeEligible ce res ctx)) = some c := hc
    rcases selectEdge_spec _ c hc2 with ⟨hmem, hbest⟩
    rcases List.mem_filter.mp hmem with ⟨hmem2, helig⟩
    rcases List.mem_filter.mp hmem2 with ⟨hedges, hsrc⟩
    refine ⟨hedges, by simpa using hsrc, helig, ?_⟩
    intro e he hesrc heelig
    have heL : e ∈ (edges.filter (fun e => e.source == src)).filter
        (edgeEligible ce res ctx) :=
      List.mem_filter.mpr ⟨List.mem_filter.mpr ⟨he, by simp [hesrc]⟩, heelig⟩
    have hnb := hbest e heL
    simp only [Beats, not_or, not_and, not_lt] at hnb
    exact ⟨hnb.1, fun hpeq => hnb.2 hpeq⟩
  · intro e he hesrc heelig
    have heL : e ∈ (edges.filter (fun e => e.source == src)).filter
        (edgeEligible ce res ctx) :=
      List.mem_filter.mpr ⟨List.mem_filter.mpr ⟨he, by simp [hesrc]⟩, heelig⟩
    exact selectEdge_exists _ (List.ne_nil_of_mem heL)

/-- C6 witness: among the fixture edges the priority-two edge with the
smaller id fires, and the fired edge satisfies the selection properties. -/
theorem executor_edge_selection_witness :
    fireEdge constFalseCE anyRes [] tieEdges ("S") = some tieWinner ∧
    tieWinner ∈ tieEdges ∧ tieWinner.source = "S" ∧
    edgeEligible constFalseCE anyRes [] tieWinner = true := by
  have hfire : fireEdge constFalseCE anyRes [] tieEdges ("S") =
      some tieWinner := by decide
  have h := (executor_edge_selection constFalseCE anyRes [] tieEdges
    ("S")).1 tieWinner hfire
  exact ⟨hfire, h.1, h.2.1, h.2.2.1⟩

/-- C10: each ApiClient method resolves with the parsed JSON body exactly on
a 2xx response, otherwise rejects with an ApiError carrying the HTTP status
and the parsed error message; the error message is the JSON body msg or
message field when one parses truthy, else the raw body text; no method
resolves on a non-2xx response. -/
theorem apiClient_methods_spec (c : ApiClient) (fetch : Fetch)
    (parse : String → Option Json) (stringify : Json → String)
    (token : Option String) (endpoint : String) (data : Option Json)
    (dataPut : Json) :
    ((∀ j, respOk (fetch (c.getRequest token endpoint)) = true →
      parse (fetch (c.getRequest token endpoint)).body = some j →
      c.get fetch parse token endpoint = Except.ok j) ∧
     (respOk (fetch (c.getRequest token endpoint)) = false →
      c.get fetch parse token endpoint = Except.error (RequestError.api
        { status := (fetch (c.getRequest token endpoint)).status,
          message := parseErrorMessage parse
            (fetch (c.getRequest token endpoint)).body }))) ∧
    ((∀ j, respOk (fetch (c.postRequest stringify token endpoint data)) =
        true →
      parse (fetch (c.postRequest stringify token endpoint data)).body =
        some j →
      c.post fetch parse stringify token endpoint data = Except.ok j) ∧
     (respOk (fetch (c.postRequest stringify token endpoint data)) = false →
      c.post fetch parse stringify token endpoint data =
        Except.error (RequestError.api
          { status :=
              (fetch (c.postRequest stringify token endpoint data)).status,
            message := parseErrorMessage parse
              (fetch (c.postRequest stringify token endpoint data)).body }))) ∧
    ((∀ j, respOk (fetch (c.putRequest stringify token endpoint dataPut)) =
        true →
      parse (fetch (c.putRequest stringify token endpoint dataPut)).body =
        some j →
      c.put fetch parse stringify token endpoint dataPut = Except.ok j) ∧
     (respOk (fetch (c.putRequest stringify token endpoint dataPut)) =
        false →
      c.put fetch parse stringify token endpoint dataPut =
        Except.error (RequestError.api
          { status :=
              (fetch (c.putRequest stringify token endpoint dataPut)).status,
            message := parseErrorMessage parse
              (fetch (c.putRequest stringify token endpoint
                dataPut)).body }))) ∧
    ((∀ j, respOk (fetch (c.deleteRequest token endpoint)) = true →
      parse (fetch (c.deleteRequest token endpoint)).body = some j →
      c.delete fetch parse token endpoint = Except.ok j) ∧
     (respOk (fetch (c.deleteRequest token endpoint)) = false →
      c.delete fetch parse token endpoint = Except.error (RequestError.api
        { status := (fetch (c.deleteRequest token endpoint)).status,
          message := parseErrorMessage parse
            (fetch (c.deleteRequest token endpoint)).body }))) ∧
    (∀ body, parse body = none →
      parseErrorMessage parse body = Json.str body) ∧
    (∀ body j v, parse body = some j → truthyField j ("msg") = some v →
      parseErrorMessage parse body = v) ∧
    (∀ body j v, parse body = some j → truthyField j ("msg") = none →
      truthyField j ("message") = some v →
      parseErrorMessage parse body = v) ∧
    (∀ body j, parse body = some j → truthyField j ("msg") = none →
      truthyField j ("message") = none →
      parseErrorMessage parse body = Json.str body) := by
  refine ⟨⟨?_, ?_⟩, ⟨?_, ?_⟩, ⟨?_, ?_⟩, ⟨?_, ?_⟩, ?_, ?_, ?_, ?_⟩
  · intro j hok hparse
    simp only [ApiClient.get, hok, if_true, hparse]
  · intro hbad
    simp only [ApiClient.get, hbad, Bool.false_eq_true, if_false]
  · intro j hok hparse
    simp only [ApiClient.post, hok, if_true, hparse]
  · intro hbad
    simp only [ApiClient.post, hbad, Bool.false_eq_true, if_false]
  · intro j hok hparse
    simp only [ApiClient.put, hok, if_true, hparse]
  · intro hbad
    simp only [ApiClient.put, hbad, Bool.false_eq_true, if_false]
  · intro j hok hparse
    simp only [ApiClient.delete, hok, if_true, hparse]
  · intro hbad
    simp only [ApiClient.delete, hbad, Bool.false_eq_true, if_false]
  · intro body hnone
    simp only [parseErrorMessage, hnone]
  · intro body j v hparse hmsg
    simp only [parseErrorMessage, hparse, hmsg]
  · intro body j v hparse hmsg hmessage
    simp only [parseErrorMessage, hparse, hmsg, hmessage]
  · intro body j hparse hmsg hmessage
    simp only [parseErrorMessage, hparse, hmsg, hmessage]

/-- C10 witness: on the demo transport, GET resolves with the parsed body and
DELETE rejects with a 404 ApiError carrying the raw body text. -/
theorem apiClient_methods_spec_witness :
    demoClient.get demoFetch demoParse none ("/a") =
      Except.ok (Json.str ("ready")) ∧
    demoClient.delete demoFetch demoParse none ("/a") =
      Except.error (RequestError.api
        { status := 404, message := Json.str ("nope") }) := by
  have h := apiClient_methods_spec demoClient demoFetch demoParse
    demoStringify none ("/a") none Json.null
  refine ⟨h.1.1 (Json.str ("ready")) (by rfl) (by rfl), ?_⟩
  have hd := h.2.2.2.1.2 (by rfl)
  rw [hd]
  rfl

end Hive
